import Mathlib

/-!
Shallow embedding of the Modbus TCP server (server.go): the request
dispatch pipeline of handleTransport, and the connection-lifecycle
state machine of Start / Stop / acceptTCPClients / handleTCPClient.

Machine integers are modelled as Nat with explicit `% 256` where the Go
code casts to uint8. Byte sequences are `List Nat` (each element a byte
value). Fallible payload accesses are modelled with `List.get?`, so that
an out-of-bounds access is observable as `none`.
-/

namespace Modbus

/-! ## Function codes (named in the RequestHandler doc comments of server.go) -/

def FC_READ_COILS : Nat := 0x01
def FC_READ_DISCRETE_INPUTS : Nat := 0x02
def FC_READ_HOLDING_REGISTERS : Nat := 0x03
def FC_READ_INPUT_REGISTERS : Nat := 0x04
def FC_WRITE_SINGLE_COIL : Nat := 0x05
def FC_WRITE_SINGLE_REGISTER : Nat := 0x06
def FC_WRITE_MULTIPLE_COILS : Nat := 0x0f
def FC_WRITE_MULTIPLE_REGISTERS : Nat := 0x10

/-- Modelled from the spec: exception codes (illegal function, illegal data
address, illegal data value, server device failure) carried in the payload of
an error response; the constants themselves live outside server.go. -/
def EX_ILLEGAL_FUNCTION : Nat := 0x01

def EX_ILLEGAL_DATA_ADDRESS : Nat := 0x02

def EX_ILLEGAL_DATA_VALUE : Nat := 0x03

def EX_SERVER_DEVICE_FAILURE : Nat := 0x04

/-- Error values used by server.go (ErrProtocolError, ErrIllegalDataAddress,
ErrServerDeviceFailure) plus the errors a handler may return. `other`
stands for any unrecognized handler error. -/
inductive MbError where
  | protocolError
  | illegalDataAddress
  | illegalDataValue
  | illegalFunction
  | serverDeviceFailure
  | other
deriving DecidableEq, Repr

/-- Modelled from the spec: mapErrorToExceptionCode (in modbus.go, not under
src/) maps handler errors through a fixed table, with unrecognized errors
defaulting to the server-device-failure exception code. -/
def mapErrorToExceptionCode : MbError → Nat
  | .illegalFunction => EX_ILLEGAL_FUNCTION
  | .illegalDataAddress => EX_ILLEGAL_DATA_ADDRESS
  | .illegalDataValue => EX_ILLEGAL_DATA_VALUE
  | .serverDeviceFailure => EX_SERVER_DEVICE_FAILURE
  | _ => EX_SERVER_DEVICE_FAILURE

/-! ## Byte-order and bit-packing helpers
(bytesToUint16, uint16ToBytes, uint16sToBytes, bytesToUint16s, encodeBools,
decodeBools live in modbus.go, not under src/). -/

/-- Modelled from the spec: big-endian decoding of a 16-bit field from its
two bytes. -/
def bytesToUint16 (hi lo : Nat) : Nat := hi * 256 + lo

/-- Modelled from the spec: big-endian encoding of a 16-bit value. -/
def uint16ToBytes (v : Nat) : List Nat := [v / 256 % 256, v % 256]

/-- Modelled from the spec: big-endian encoding of a list of 16-bit values. -/
def uint16sToBytes (vs : List Nat) : List Nat := vs.flatMap uint16ToBytes

/-- Modelled from the spec: big-endian decoding of consecutive 16-bit values. -/
def bytesToUint16s : List Nat → List Nat
  | hi :: lo :: rest => bytesToUint16 hi lo :: bytesToUint16s rest
  | _ => []

/-- Pack up to 8 booleans into one byte, least-significant-bit first. -/
def boolsToByte (bs : List Bool) : Nat :=
  bs.foldr (fun b acc => acc * 2 + (if b then 1 else 0)) 0

/-- Modelled from the spec: bit-packed boolean arrays use byte `i / 8`,
bit `i % 8`, least-significant bit first; the packed output has
`ceil(n / 8)` bytes. -/
def encodeBools (bs : List Bool) : List Nat :=
  (List.range ((bs.length + 7) / 8)).map (fun j => boolsToByte ((bs.drop (8 * j)).take 8))

/-- Modelled from the spec: unpack `quantity` booleans from a bit-packed
byte sequence, bit `i` taken from byte `i / 8` at bit position `i % 8`. -/
def decodeBools (quantity : Nat) (bs : List Nat) : List Bool :=
  (List.range quantity).map (fun i => (bs.getD (i / 8) 0) / 2 ^ (i % 8) % 2 = 1)

/-! ## PDUs and the request handler interface -/

/-- The pdu structure of server.go: unit id, function code, payload bytes. -/
structure pdu where
  unitId : Nat
  functionCode : Nat
  payload : List Nat
deriving DecidableEq, Repr

/-- The RequestHandler interface of server.go. Each operation returns the
result slice together with an optional error (`none` = nil error). -/
structure Handler where
  HandleCoils : Nat → Nat → Nat → Bool → List Bool → List Bool × Option MbError
  HandleDiscreteInputs : Nat → Nat → Nat → List Bool × Option MbError
  HandleHoldingRegisters : Nat → Nat → Nat → Bool → List Nat → List Nat × Option MbError
  HandleInputRegisters : Nat → Nat → Nat → List Nat × Option MbError

/-- A record of one handler invocation (which operation, with which
arguments), used to observe whether and how the dispatcher called the
user-provided handler. -/
inductive HCall where
  | coils (unitId addr quantity : Nat) (isWrite : Bool) (args : List Bool)
  | discreteInputs (unitId addr quantity : Nat)
  | holdingRegs (unitId addr quantity : Nat) (isWrite : Bool) (args : List Nat)
  | inputRegs (unitId addr quantity : Nat)
deriving DecidableEq, Repr

/-- Outcome of one dispatch case of handleTransport: either the `err`
variable was set, or the response pdu `res` was built. -/
inductive Outcome where
  | err (e : MbError)
  | ok (res : pdu)
deriving DecidableEq, Repr

/-! ## The per-function-code dispatch cases of handleTransport -/

/-- The FC_READ_COILS / FC_READ_DISCRETE_INPUTS case of handleTransport
(server.go lines 298-360). `none` marks an out-of-bounds payload access. -/
def readCoilsBranch (h : Handler) (req : pdu) : Option (Outcome × List HCall) :=
  if req.payload.length ≠ 4 then some (.err .protocolError, []) else
  match req.payload.get? 0, req.payload.get? 1, req.payload.get? 2, req.payload.get? 3 with
  | some b0, some b1, some b2, some b3 =>
    let addr := bytesToUint16 b0 b1
    let quantity := bytesToUint16 b2 b3
    if quantity > 2000 ∨ quantity = 0 then some (.err .protocolError, []) else
    if addr + quantity - 1 > 0xffff then some (.err .illegalDataAddress, []) else
    let invoked :=
      if req.functionCode = FC_READ_COILS then
        (h.HandleCoils req.unitId addr quantity false [],
         HCall.coils req.unitId addr quantity false [])
      else
        (h.HandleDiscreteInputs req.unitId addr quantity,
         HCall.discreteInputs req.unitId addr quantity)
    let coils := invoked.1.1
    let herr := invoked.1.2
    let call := invoked.2
    let resCount := coils.length
    if herr = none ∧ resCount ≠ quantity then some (.err .serverDeviceFailure, [call]) else
    match herr with
    | some e => some (.err e, [call])
    | none =>
      some (.ok ⟨req.unitId, req.functionCode,
        ((resCount / 8 % 256 + if resCount % 8 ≠ 0 then 1 else 0) % 256)
          :: encodeBools coils⟩, [call])
  | _, _, _, _ => none

/-- The FC_WRITE_SINGLE_COIL case of handleTransport (server.go lines
362-399). -/
def writeSingleCoilBranch (h : Handler) (req : pdu) : Option (Outcome × List HCall) :=
  if req.payload.length ≠ 4 then some (.err .protocolError, []) else
  match req.payload.get? 0, req.payload.get? 1, req.payload.get? 2, req.payload.get? 3 with
  | some b0, some b1, some b2, some b3 =>
    let addr := bytesToUint16 b0 b1
    if (b2 ≠ 0xff ∧ b2 ≠ 0x00) ∨ b3 ≠ 0x00 then some (.err .protocolError, []) else
    let args := [decide (b2 = 0xff)]
    let call := HCall.coils req.unitId addr 1 true args
    match (h.HandleCoils req.unitId addr 1 true args).2 with
    | some e => some (.err e, [call])
    | none =>
      some (.ok ⟨req.unitId, req.functionCode, uint16ToBytes addr ++ [b2, b3]⟩, [call])
  | _, _, _, _ => none

/-- The FC_WRITE_MULTIPLE_COILS case of handleTransport (server.go lines
401-462). -/
def writeMultipleCoilsBranch (h : Handler) (req : pdu) : Option (Outcome × List HCall) :=
  if req.payload.length < 6 then some (.err .protocolError, []) else
  match req.payload.get? 0, req.payload.get? 1, req.payload.get? 2, req.payload.get? 3,
        req.payload.get? 4 with
  | some b0, some b1, some b2, some b3, some b4 =>
    let addr := bytesToUint16 b0 b1
    let quantity := bytesToUint16 b2 b3
    if quantity > 0x7b0 ∨ quantity = 0 then some (.err .protocolError, []) else
    if addr + quantity - 1 > 0xffff then some (.err .illegalDataAddress, []) else
    let expectedLen := quantity / 8 + if quantity % 8 ≠ 0 then 1 else 0
    if b4 ≠ expectedLen % 256 then some (.err .protocolError, []) else
    if req.payload.length - 5 ≠ expectedLen then some (.err .protocolError, []) else
    let args := decodeBools quantity (req.payload.drop 5)
    let call := HCall.coils req.unitId addr quantity true args
    match (h.HandleCoils req.unitId addr quantity true args).2 with
    | some e => some (.err e, [call])
    | none =>
      some (.ok ⟨req.unitId, req.functionCode,
        uint16ToBytes addr ++ uint16ToBytes quantity⟩, [call])
  | _, _, _, _, _ => none

/-- The FC_READ_HOLDING_REGISTERS / FC_READ_INPUT_REGISTERS case of
handleTransport (server.go lines 464-524). -/
def readRegistersBranch (h : Handler) (req : pdu) : Option (Outcome × List HCall) :=
  if req.payload.length ≠ 4 then some (.err .protocolError, []) else
  match req.payload.get? 0, req.payload.get? 1, req.payload.get? 2, req.payload.get? 3 with
  | some b0, some b1, some b2, some b3 =>
    let addr := bytesToUint16 b0 b1
    let quantity := bytesToUint16 b2 b3
    if quantity > 0x007d ∨ quantity = 0 then some (.err .protocolError, []) else
    if addr + quantity - 1 > 0xffff then some (.err .illegalDataAddress, []) else
    let invoked :=
      if req.functionCode = FC_READ_HOLDING_REGISTERS then
        (h.HandleHoldingRegisters req.unitId addr quantity false [],
         HCall.holdingRegs req.unitId addr quantity false [])
      else
        (h.HandleInputRegisters req.unitId addr quantity,
         HCall.inputRegs req.unitId addr quantity)
    let regs := invoked.1.1
    let herr := invoked.1.2
    let call := invoked.2
    let resCount := regs.length
    if herr = none ∧ resCount ≠ quantity then some (.err .serverDeviceFailure, [call]) else
    match herr with
    | some e => some (.err e, [call])
    | none =>
      some (.ok ⟨req.unitId, req.functionCode,
        (resCount * 2 % 256) :: uint16sToBytes regs⟩, [call])
  | _, _, _, _ => none

/-- The FC_WRITE_SINGLE_REGISTER case of handleTransport (server.go lines
526-559). -/
def writeSingleRegisterBranch (h : Handler) (req : pdu) : Option (Outcome × List HCall) :=
  if req.payload.length ≠ 4 then some (.err .protocolError, []) else
  match req.payload.get? 0, req.payload.get? 1, req.payload.get? 2, req.payload.get? 3 with
  | some b0, some b1, some b2, some b3 =>
    let addr := bytesToUint16 b0 b1
    let value := bytesToUint16 b2 b3
    let call := HCall.holdingRegs req.unitId addr 1 true [value]
    match (h.HandleHoldingRegisters req.unitId addr 1 true [value]).2 with
    | some e => some (.err e, [call])
    | none =>
      some (.ok ⟨req.unitId, req.functionCode,
        uint16ToBytes addr ++ uint16ToBytes value⟩, [call])
  | _, _, _, _ => none

/-- The FC_WRITE_MULTIPLE_REGISTERS case of handleTransport (server.go
lines 561-619). -/
def writeMultipleRegistersBranch (h : Handler) (req : pdu) : Option (Outcome × List HCall) :=
  if req.payload.length < 6 then some (.err .protocolError, []) else
  match req.payload.get? 0, req.payload.get? 1, req.payload.get? 2, req.payload.get? 3,
        req.payload.get? 4 with
  | some b0, some b1, some b2, some b3, some b4 =>
    let addr := bytesToUint16 b0 b1
    let quantity := bytesToUint16 b2 b3
    if quantity > 0x007b ∨ quantity = 0 then some (.err .protocolError, []) else
    if addr + quantity - 1 > 0xffff then some (.err .illegalDataAddress, []) else
    let expectedLen := quantity * 2
    if b4 ≠ expectedLen % 256 then some (.err .protocolError, []) else
    if req.payload.length - 5 ≠ expectedLen then some (.err .protocolError, []) else
    let args := bytesToUint16s (req.payload.drop 5)
    let call := HCall.holdingRegs req.unitId addr quantity true args
    match (h.HandleHoldingRegisters req.unitId addr quantity true args).2 with
    | some e => some (.err e, [call])
    | none =>
      some (.ok ⟨req.unitId, req.functionCode,
        uint16ToBytes addr ++ uint16ToBytes quantity⟩, [call])
  | _, _, _, _, _ => none

/-- The switch statement of handleTransport: dispatch on the function code;
any unsupported code is answered with an illegal-function exception pdu. -/
def dispatch (h : Handler) (req : pdu) : Option (Outcome × List HCall) :=
  if req.functionCode = FC_READ_COILS ∨ req.functionCode = FC_READ_DISCRETE_INPUTS then
    readCoilsBranch h req
  else if req.functionCode = FC_WRITE_SINGLE_COIL then
    writeSingleCoilBranch h req
  else if req.functionCode = FC_WRITE_MULTIPLE_COILS then
    writeMultipleCoilsBranch h req
  else if req.functionCode = FC_READ_HOLDING_REGISTERS ∨
          req.functionCode = FC_READ_INPUT_REGISTERS then
    readRegistersBranch h req
  else if req.functionCode = FC_WRITE_SINGLE_REGISTER then
    writeSingleRegisterBranch h req
  else if req.functionCode = FC_WRITE_MULTIPLE_REGISTERS then
    writeMultipleRegistersBranch h req
  else
    some (.ok ⟨req.unitId, 0x80 ||| req.functionCode, [EX_ILLEGAL_FUNCTION]⟩, [])

/-- What handleTransport does with one request after its dispatch case ran:
close the link on a protocol error, write an error response for any other
error, write the built response otherwise. `oob` marks the (unreachable)
out-of-bounds payload access. -/
inductive StepResult where
  | closed
  | reply (res : pdu)
  | oob
deriving DecidableEq, Repr

/-- The error-mapping and response-write tail of handleTransport (server.go
lines 644-662). -/
def finalize (req : pdu) : Outcome → StepResult
  | .err e =>
    if e = .protocolError then .closed
    else .reply ⟨req.unitId, 0x80 ||| req.functionCode, [mapErrorToExceptionCode e]⟩
  | .ok res => .reply res

/-- One full iteration of the handleTransport loop on a decoded request:
the dispatch switch followed by error mapping / response write. Also
returns the list of handler invocations the iteration performed. -/
def handleRequest (h : Handler) (req : pdu) : StepResult × List HCall :=
  match dispatch h req with
  | none => (.oob, [])
  | some (o, calls) => (finalize req o, calls)

/-- The handleTransport loop over a sequence of decoded requests: returns
the responses written, stopping (and writing nothing further) as soon as a
request closes the link. -/
def handleRequests (h : Handler) : List pdu → List pdu
  | [] => []
  | r :: rs =>
    match (handleRequest h r).1 with
    | .reply res => res :: handleRequests h rs
    | _ => []

/-- A trivial handler returning empty data and nil error everywhere (used
to instantiate theorems at concrete inputs). -/
def nullHandler : Handler where
  HandleCoils := fun _ _ _ _ _ => ([], none)
  HandleDiscreteInputs := fun _ _ _ => ([], none)
  HandleHoldingRegisters := fun _ _ _ _ _ => ([], none)
  HandleInputRegisters := fun _ _ _ => ([], none)

/-- A handler whose coil read returns one coil set to true (used to
instantiate theorems at concrete inputs). -/
def oneCoilHandler : Handler where
  HandleCoils := fun _ _ _ _ _ => ([true], none)
  HandleDiscreteInputs := fun _ _ _ => ([], none)
  HandleHoldingRegisters := fun _ _ _ _ _ => ([], none)
  HandleInputRegisters := fun _ _ _ => ([], none)

/-- A handler whose register read returns the values [1, 2, 3] (used to
instantiate theorems at concrete inputs). -/
def threeRegsHandler : Handler where
  HandleCoils := fun _ _ _ _ _ => ([], none)
  HandleDiscreteInputs := fun _ _ _ => ([], none)
  HandleHoldingRegisters := fun _ _ _ _ _ => ([1, 2, 3], none)
  HandleInputRegisters := fun _ _ _ => ([], none)

/-- A handler whose coil read returns the protocol-error value together
with an empty (wrong-length) result slice. -/
def protoErrHandler : Handler where
  HandleCoils := fun _ _ _ _ _ => ([], some .protocolError)
  HandleDiscreteInputs := fun _ _ _ => ([], none)
  HandleHoldingRegisters := fun _ _ _ _ _ => ([], none)
  HandleInputRegisters := fun _ _ _ => ([], none)

/-! ## Server lifecycle: Start, Stop, acceptTCPClients, handleTCPClient

The shared mutable state of ModbusServer is the `started` flag, the
listener, and the tcpClients slice, all mutated under one lock; we model
the lock-protected critical sections as atomic transitions on an explicit
state. Connections are identified by a Nat. `closedConns` records every
connection on which Close() has been called; `workers` records every
connection handed to a handleTCPClient goroutine. -/

structure ServerState where
  started : Bool
  listenerOpen : Bool
  tcpClients : List Nat
  workers : List Nat
  closedConns : List Nat
deriving DecidableEq, Repr

/-- The events that mutate the shared server state: Start, Stop, one
accept-loop admission decision for a newly accepted connection, and one
exiting worker deregistering its connection. -/
inductive Event where
  | start
  | stop
  | accept (c : Nat)
  | workerExit (c : Nat)
deriving DecidableEq, Repr

/-- The deregistration loop of handleTCPClient (server.go lines 265-273):
find the first index holding the connection, overwrite it with the last
element, and truncate by one; if the connection is not present, the slice
is unchanged. -/
def swapRemove (l : List Nat) (c : Nat) : List Nat :=
  match l.findIdx? (· = c) with
  | none => l
  | some i => (l.set i (l.getLastD 0)).dropLast

/-- The state before NewServer / Start: not started, no listener, no
connections. -/
def initState : ServerState :=
  ⟨false, false, [], [], []⟩

/-- One lock-protected transition of the server state. `max` is the
configured MaxClients (after NewServer fills in the default).
- Start (server.go 155-182): no-op when already started, else bind the
  listener and mark started.
- Stop (server.go 185-206): no-op when not started, else clear `started`,
  close the listener and call Close() on every tracked connection; the
  tcpClients slice itself is not cleared.
- accept (server.go 227-246): only meaningful while the listener is open;
  admit the connection (append to tcpClients, spawn a worker) when the
  current count is strictly below `max`, otherwise close it unregistered.
- workerExit (server.go 265-276): swap-remove the connection from
  tcpClients and close it. -/
def step (max : Nat) (s : ServerState) : Event → ServerState
  | .start =>
    if s.started then s
    else { s with started := true, listenerOpen := true }
  | .stop =>
    if !s.started then s
    else { s with started := false, listenerOpen := false,
                  closedConns := s.tcpClients ++ s.closedConns }
  | .accept c =>
    if !s.listenerOpen then s
    else if s.tcpClients.length < max then
      { s with tcpClients := s.tcpClients ++ [c], workers := s.workers ++ [c] }
    else
      { s with closedConns := c :: s.closedConns }
  | .workerExit c =>
    { s with tcpClients := swapRemove s.tcpClients c,
             closedConns := c :: s.closedConns }

/-- The server state reached from `initState` by a sequence of events. -/
def runEvents (max : Nat) (es : List Event) : ServerState :=
  es.foldl (step max) initState

/-- Let each remaining connection worker deregister in turn: while fuel
remains and tcpClients is nonempty, apply the workerExit transition for
the first tracked connection. -/
def drain (max : Nat) (fuel : Nat) (s : ServerState) : ServerState :=
  match fuel with
  | 0 => s
  | f + 1 =>
    if s.tcpClients = [] then s
    else drain max f (step max s (.workerExit (s.tcpClients.headD 0)))

/-! ## Theorems -/

/-! ### Helper lemmas for the illegal-data-address paths -/

theorem readCoilsBranch_illegalAddr (h : Handler) (u fc b0 b1 b2 b3 : Nat)
    (hq1 : 1 ≤ bytesToUint16 b2 b3) (hq2 : bytesToUint16 b2 b3 ≤ 2000)
    (haddr : bytesToUint16 b0 b1 + bytesToUint16 b2 b3 - 1 > 0xffff) :
    readCoilsBranch h ⟨u, fc, [b0, b1, b2, b3]⟩ = some (.err .illegalDataAddress, []) := by
  have hne : ¬(bytesToUint16 b2 b3 > 2000 ∨ bytesToUint16 b2 b3 = 0) := by omega
  simp [readCoilsBranch, List.get?, hne, haddr]

theorem readRegistersBranch_illegalAddr (h : Handler) (u fc b0 b1 b2 b3 : Nat)
    (hq1 : 1 ≤ bytesToUint16 b2 b3) (hq2 : bytesToUint16 b2 b3 ≤ 0x7d)
    (haddr : bytesToUint16 b0 b1 + bytesToUint16 b2 b3 - 1 > 0xffff) :
    readRegistersBranch h ⟨u, fc, [b0, b1, b2, b3]⟩ = some (.err .illegalDataAddress, []) := by
  have hne : ¬(bytesToUint16 b2 b3 > 0x7d ∨ bytesToUint16 b2 b3 = 0) := by omega
  simp [readRegistersBranch, List.get?, hne, haddr]

theorem writeMultipleCoilsBranch_illegalAddr (h : Handler) (u b0 b1 b2 b3 b4 : Nat)
    (t : List Nat) (ht : t ≠ [])
    (hq1 : 1 ≤ bytesToUint16 b2 b3) (hq2 : bytesToUint16 b2 b3 ≤ 0x7b0)
    (haddr : bytesToUint16 b0 b1 + bytesToUint16 b2 b3 - 1 > 0xffff) :
    writeMultipleCoilsBranch h ⟨u, FC_WRITE_MULTIPLE_COILS, b0 :: b1 :: b2 :: b3 :: b4 :: t⟩ =
      some (.err .illegalDataAddress, []) := by
  have hne : ¬(bytesToUint16 b2 b3 > 0x7b0 ∨ bytesToUint16 b2 b3 = 0) := by omega
  have htl : 1 ≤ t.length := by
    cases t with
    | nil => simp at ht
    | cons a t2 => simp
  have hlen : ¬((b0 :: b1 :: b2 :: b3 :: b4 :: t).length < 6) := by
    simp only [List.length_cons]
    omega
  simp [writeMultipleCoilsBranch, List.get?, hne, haddr, hlen, htl]

theorem writeMultipleRegistersBranch_illegalAddr (h : Handler) (u b0 b1 b2 b3 b4 : Nat)
    (t : List Nat) (ht : t ≠ [])
    (hq1 : 1 ≤ bytesToUint16 b2 b3) (hq2 : bytesToUint16 b2 b3 ≤ 0x7b)
    (haddr : bytesToUint16 b0 b1 + bytesToUint16 b2 b3 - 1 > 0xffff) :
    writeMultipleRegistersBranch h
        ⟨u, FC_WRITE_MULTIPLE_REGISTERS, b0 :: b1 :: b2 :: b3 :: b4 :: t⟩ =
      some (.err .illegalDataAddress, []) := by
  have hne : ¬(bytesToUint16 b2 b3 > 0x7b ∨ bytesToUint16 b2 b3 = 0) := by omega
  have htl : 1 ≤ t.length := by
    cases t with
    | nil => simp at ht
    | cons a t2 => simp
  have hlen : ¬((b0 :: b1 :: b2 :: b3 :: b4 :: t).length < 6) := by
    simp only [List.length_cons]
    omega
  simp [writeMultipleRegistersBranch, List.get?, hne, haddr, hlen, htl]

/-- An error outcome other than a protocol error is finalized into an
error-response pdu and the loop keeps serving later requests. -/
theorem handleRequests_cons_of_dispatch_err (h : Handler) (req : pdu) (rest : List pdu)
    (e : MbError) (calls : List HCall) (hne : e ≠ .protocolError)
    (hd : dispatch h req = some (.err e, calls)) :
    handleRequests h (req :: rest) =
      ⟨req.unitId, 0x80 ||| req.functionCode, [mapErrorToExceptionCode e]⟩ ::
        handleRequests h rest := by
  simp [handleRequests, handleRequest, hd, finalize, hne]

/-- C4: a Read Coils request whose decoded quantity is 0 or greater than
2000 is a protocol error: no response pdu is written for it, the transport
is closed and the worker loop exits (no later request is answered). -/
theorem readCoils_bad_quantity_closes_link (h : Handler) (u b0 b1 b2 b3 : Nat)
    (rest : List pdu)
    (hq : bytesToUint16 b2 b3 = 0 ∨ bytesToUint16 b2 b3 > 2000) :
    (handleRequest h ⟨u, FC_READ_COILS, [b0, b1, b2, b3]⟩).1 = .closed ∧
    handleRequests h (⟨u, FC_READ_COILS, [b0, b1, b2, b3]⟩ :: rest) = [] := by
  have hmain : (handleRequest h ⟨u, FC_READ_COILS, [b0, b1, b2, b3]⟩).1 = .closed := by
    rcases hq with hq | hq <;>
      simp [handleRequest, dispatch, readCoilsBranch, finalize, hq, List.get?]
  refine ⟨hmain, ?_⟩
  simp [handleRequests, hmain]

/-- C4 witness: a concrete Read Coils request with quantity 0 closes the
link. -/
theorem readCoils_bad_quantity_closes_link_witness :
    (handleRequest nullHandler ⟨0, FC_READ_COILS, [0, 0, 0, 0]⟩).1 = .closed ∧
    handleRequests nullHandler [⟨0, FC_READ_COILS, [0, 0, 0, 0]⟩] = [] :=
  readCoils_bad_quantity_closes_link nullHandler 0 0 0 0 0 [] (by decide)

/-- C6: a Write Single Coil request with a 4-byte payload whose value byte
is neither 0x00 nor 0xff, or whose following byte is not 0x00, is a
protocol error: the link is closed, no response is written, and the
handler is not invoked (the call trace is empty). -/
theorem writeSingleCoil_bad_value_closes_link (h : Handler) (u b0 b1 b2 b3 : Nat)
    (rest : List pdu)
    (hv : (b2 ≠ 0x00 ∧ b2 ≠ 0xff) ∨ b3 ≠ 0x00) :
    handleRequest h ⟨u, FC_WRITE_SINGLE_COIL, [b0, b1, b2, b3]⟩ = (.closed, []) ∧
    handleRequests h (⟨u, FC_WRITE_SINGLE_COIL, [b0, b1, b2, b3]⟩ :: rest) = [] := by
  have hmain : handleRequest h ⟨u, FC_WRITE_SINGLE_COIL, [b0, b1, b2, b3]⟩ = (.closed, []) := by
    rcases hv with ⟨hv1, hv2⟩ | hv
    · simp [handleRequest, dispatch, writeSingleCoilBranch, finalize, hv1, hv2, List.get?,
            FC_WRITE_SINGLE_COIL, FC_READ_COILS, FC_READ_DISCRETE_INPUTS]
    · simp [handleRequest, dispatch, writeSingleCoilBranch, finalize, hv, List.get?,
            FC_WRITE_SINGLE_COIL, FC_READ_COILS, FC_READ_DISCRETE_INPUTS]
  refine ⟨hmain, ?_⟩
  simp [handleRequests, hmain]

/-- C6 witness: a concrete Write Single Coil request with value byte 0x01
closes the link without invoking the handler. -/
theorem writeSingleCoil_bad_value_closes_link_witness :
    handleRequest nullHandler ⟨0, FC_WRITE_SINGLE_COIL, [0, 0, 1, 0]⟩ = (.closed, []) ∧
    handleRequests nullHandler [⟨0, FC_WRITE_SINGLE_COIL, [0, 0, 1, 0]⟩] = [] :=
  writeSingleCoil_bad_value_closes_link nullHandler 0 0 0 1 0 [] (by decide)

/-- C5: on every read or write-multiple request whose quantity is within
the per-function range but whose address range overflows the 16-bit
address space, the server answers with an error pdu carrying function
code 0x80 or-ed with the original one and a single illegal-data-address
exception byte, and the worker loop keeps serving later requests. -/
theorem illegalDataAddress_error_response (h : Handler) :
    (∀ u fc b0 b1 b2 b3 rest,
      (fc = FC_READ_COILS ∨ fc = FC_READ_DISCRETE_INPUTS ∨
       fc = FC_READ_HOLDING_REGISTERS ∨ fc = FC_READ_INPUT_REGISTERS) →
      1 ≤ bytesToUint16 b2 b3 →
      bytesToUint16 b2 b3 ≤
        (if fc = FC_READ_COILS ∨ fc = FC_READ_DISCRETE_INPUTS then 2000 else 0x7d) →
      bytesToUint16 b0 b1 + bytesToUint16 b2 b3 - 1 > 0xffff →
      handleRequests h (⟨u, fc, [b0, b1, b2, b3]⟩ :: rest) =
        ⟨u, 0x80 ||| fc, [EX_ILLEGAL_DATA_ADDRESS]⟩ :: handleRequests h rest) ∧
    (∀ u b0 b1 b2 b3 b4 t rest, t ≠ [] →
      1 ≤ bytesToUint16 b2 b3 → bytesToUint16 b2 b3 ≤ 0x7b0 →
      bytesToUint16 b0 b1 + bytesToUint16 b2 b3 - 1 > 0xffff →
      handleRequests h (⟨u, FC_WRITE_MULTIPLE_COILS, b0 :: b1 :: b2 :: b3 :: b4 :: t⟩ :: rest) =
        ⟨u, 0x80 ||| FC_WRITE_MULTIPLE_COILS, [EX_ILLEGAL_DATA_ADDRESS]⟩ ::
          handleRequests h rest) ∧
    (∀ u b0 b1 b2 b3 b4 t rest, t ≠ [] →
      1 ≤ bytesToUint16 b2 b3 → bytesToUint16 b2 b3 ≤ 0x7b →
      bytesToUint16 b0 b1 + bytesToUint16 b2 b3 - 1 > 0xffff →
      handleRequests h
          (⟨u, FC_WRITE_MULTIPLE_REGISTERS, b0 :: b1 :: b2 :: b3 :: b4 :: t⟩ :: rest) =
        ⟨u, 0x80 ||| FC_WRITE_MULTIPLE_REGISTERS, [EX_ILLEGAL_DATA_ADDRESS]⟩ ::
          handleRequests h rest) := by
  have hmap : mapErrorToExceptionCode .illegalDataAddress = EX_ILLEGAL_DATA_ADDRESS := rfl
  refine ⟨?_, ?_, ?_⟩
  · intro u fc b0 b1 b2 b3 rest hfc hq1 hq2 haddr
    rcases hfc with rfl | rfl | rfl | rfl
    · have hq2b : bytesToUint16 b2 b3 ≤ 2000 := by
        simpa [FC_READ_COILS] using hq2
      have hd : dispatch h ⟨u, FC_READ_COILS, [b0, b1, b2, b3]⟩ =
          some (.err .illegalDataAddress, []) := by
        simp only [dispatch, FC_READ_COILS, FC_READ_DISCRETE_INPUTS]
        norm_num
        exact readCoilsBranch_illegalAddr h u _ b0 b1 b2 b3 hq1 hq2b haddr
      rw [handleRequests_cons_of_dispatch_err h _ rest _ [] (by decide) hd, hmap]
    · have hq2b : bytesToUint16 b2 b3 ≤ 2000 := by
        simpa [FC_READ_DISCRETE_INPUTS] using hq2
      have hd : dispatch h ⟨u, FC_READ_DISCRETE_INPUTS, [b0, b1, b2, b3]⟩ =
          some (.err .illegalDataAddress, []) := by
        simp only [dispatch, FC_READ_COILS, FC_READ_DISCRETE_INPUTS]
        norm_num
        exact readCoilsBranch_illegalAddr h u _ b0 b1 b2 b3 hq1 hq2b haddr
      rw [handleRequests_cons_of_dispatch_err h _ rest _ [] (by decide) hd, hmap]
    · have hq2b : bytesToUint16 b2 b3 ≤ 0x7d := by
        simpa [FC_READ_HOLDING_REGISTERS, FC_READ_COILS, FC_READ_DISCRETE_INPUTS] using hq2
      have hd : dispatch h ⟨u, FC_READ_HOLDING_REGISTERS, [b0, b1, b2, b3]⟩ =
          some (.err .illegalDataAddress, []) := by
        simp only [dispatch, FC_READ_COILS, FC_READ_DISCRETE_INPUTS, FC_WRITE_SINGLE_COIL,
          FC_WRITE_MULTIPLE_COILS, FC_READ_HOLDING_REGISTERS, FC_READ_INPUT_REGISTERS]
        norm_num
        exact readRegistersBranch_illegalAddr h u _ b0 b1 b2 b3 hq1 hq2b haddr
      rw [handleRequests_cons_of_dispatch_err h _ rest _ [] (by decide) hd, hmap]
    · have hq2b : bytesToUint16 b2 b3 ≤ 0x7d := by
        simpa [FC_READ_INPUT_REGISTERS, FC_READ_COILS, FC_READ_DISCRETE_INPUTS] using hq2
      have hd : dispatch h ⟨u, FC_READ_INPUT_REGISTERS, [b0, b1, b2, b3]⟩ =
          some (.err .illegalDataAddress, []) := by
        simp only [dispatch, FC_READ_COILS, FC_READ_DISCRETE_INPUTS, FC_WRITE_SINGLE_COIL,
          FC_WRITE_MULTIPLE_COILS, FC_READ_HOLDING_REGISTERS, FC_READ_INPUT_REGISTERS]
        norm_num
        exact readRegistersBranch_illegalAddr h u _ b0 b1 b2 b3 hq1 hq2b haddr
      rw [handleRequests_cons_of_dispatch_err h _ rest _ [] (by decide) hd, hmap]
  · intro u b0 b1 b2 b3 b4 t rest ht hq1 hq2 haddr
    have hd : dispatch h ⟨u, FC_WRITE_MULTIPLE_COILS, b0 :: b1 :: b2 :: b3 :: b4 :: t⟩ =
        some (.err .illegalDataAddress, []) := by
      simp only [dispatch, FC_READ_COILS, FC_READ_DISCRETE_INPUTS, FC_WRITE_SINGLE_COIL,
        FC_WRITE_MULTIPLE_COILS]
      norm_num
      exact writeMultipleCoilsBranch_illegalAddr h u b0 b1 b2 b3 b4 t ht hq1 hq2 haddr
    rw [handleRequests_cons_of_dispatch_err h _ rest _ [] (by decide) hd, hmap]
  · intro u b0 b1 b2 b3 b4 t rest ht hq1 hq2 haddr
    have hd : dispatch h ⟨u, FC_WRITE_MULTIPLE_REGISTERS, b0 :: b1 :: b2 :: b3 :: b4 :: t⟩ =
        some (.err .illegalDataAddress, []) := by
      simp only [dispatch, FC_READ_COILS, FC_READ_DISCRETE_INPUTS, FC_WRITE_SINGLE_COIL,
        FC_WRITE_MULTIPLE_COILS, FC_READ_HOLDING_REGISTERS, FC_READ_INPUT_REGISTERS,
        FC_WRITE_SINGLE_REGISTER, FC_WRITE_MULTIPLE_REGISTERS]
      norm_num
      exact writeMultipleRegistersBranch_illegalAddr h u b0 b1 b2 b3 b4 t ht hq1 hq2 haddr
    rw [handleRequests_cons_of_dispatch_err h _ rest _ [] (by decide) hd, hmap]

/-- C5 witness: a concrete Read Coils request at address 0xffff with
quantity 2 gets an illegal-data-address error response and a later
request is still served. -/
theorem illegalDataAddress_error_response_witness :
    handleRequests nullHandler
        [⟨0, FC_READ_COILS, [0xff, 0xff, 0, 2]⟩, ⟨0, 0x2b, []⟩] =
      [⟨0, 0x80 ||| FC_READ_COILS, [EX_ILLEGAL_DATA_ADDRESS]⟩,
       ⟨0, 0x80 ||| 0x2b, [EX_ILLEGAL_FUNCTION]⟩] := by
  have h := (illegalDataAddress_error_response nullHandler).1 0 FC_READ_COILS
    0xff 0xff 0 2 [⟨0, 0x2b, []⟩] (Or.inl rfl) (by decide) (by decide) (by decide)
  rw [h]
  decide

/-- C7: on every read request with valid bounds where the handler returns
a nil error but a result slice whose length differs from the requested
quantity, the server answers with an error pdu carrying the
server-device-failure exception code instead of the handler data, and the
link stays open for later requests. -/
theorem wrong_count_server_device_failure (h : Handler) :
    (∀ u b0 b1 b2 b3 rest res,
      h.HandleCoils u (bytesToUint16 b0 b1) (bytesToUint16 b2 b3) false [] = (res, none) →
      res.length ≠ bytesToUint16 b2 b3 →
      1 ≤ bytesToUint16 b2 b3 → bytesToUint16 b2 b3 ≤ 2000 →
      bytesToUint16 b0 b1 + bytesToUint16 b2 b3 - 1 ≤ 0xffff →
      handleRequests h (⟨u, FC_READ_COILS, [b0, b1, b2, b3]⟩ :: rest) =
        ⟨u, 0x80 ||| FC_READ_COILS, [EX_SERVER_DEVICE_FAILURE]⟩ :: handleRequests h rest) ∧
    (∀ u b0 b1 b2 b3 rest res,
      h.HandleDiscreteInputs u (bytesToUint16 b0 b1) (bytesToUint16 b2 b3) = (res, none) →
      res.length ≠ bytesToUint16 b2 b3 →
      1 ≤ bytesToUint16 b2 b3 → bytesToUint16 b2 b3 ≤ 2000 →
      bytesToUint16 b0 b1 + bytesToUint16 b2 b3 - 1 ≤ 0xffff →
      handleRequests h (⟨u, FC_READ_DISCRETE_INPUTS, [b0, b1, b2, b3]⟩ :: rest) =
        ⟨u, 0x80 ||| FC_READ_DISCRETE_INPUTS, [EX_SERVER_DEVICE_FAILURE]⟩ ::
          handleRequests h rest) ∧
    (∀ u b0 b1 b2 b3 rest res,
      h.HandleHoldingRegisters u (bytesToUint16 b0 b1) (bytesToUint16 b2 b3) false [] =
        (res, none) →
      res.length ≠ bytesToUint16 b2 b3 →
      1 ≤ bytesToUint16 b2 b3 → bytesToUint16 b2 b3 ≤ 0x7d →
      bytesToUint16 b0 b1 + bytesToUint16 b2 b3 - 1 ≤ 0xffff →
      handleRequests h (⟨u, FC_READ_HOLDING_REGISTERS, [b0, b1, b2, b3]⟩ :: rest) =
        ⟨u, 0x80 ||| FC_READ_HOLDING_REGISTERS, [EX_SERVER_DEVICE_FAILURE]⟩ ::
          handleRequests h rest) ∧
    (∀ u b0 b1 b2 b3 rest res,
      h.HandleInputRegisters u (bytesToUint16 b0 b1) (bytesToUint16 b2 b3) = (res, none) →
      res.length ≠ bytesToUint16 b2 b3 →
      1 ≤ bytesToUint16 b2 b3 → bytesToUint16 b2 b3 ≤ 0x7d →
      bytesToUint16 b0 b1 + bytesToUint16 b2 b3 - 1 ≤ 0xffff →
      handleRequests h (⟨u, FC_READ_INPUT_REGISTERS, [b0, b1, b2, b3]⟩ :: rest) =
        ⟨u, 0x80 ||| FC_READ_INPUT_REGISTERS, [EX_SERVER_DEVICE_FAILURE]⟩ ::
          handleRequests h rest) := by
  have hmap : mapErrorToExceptionCode .serverDeviceFailure = EX_SERVER_DEVICE_FAILURE := rfl
  refine ⟨?_, ?_, ?_, ?_⟩ <;> intro u b0 b1 b2 b3 rest res hh hcount hq1 hq2 haddr <;>
    have haddr2 : ¬(bytesToUint16 b0 b1 + bytesToUint16 b2 b3 - 1 > 0xffff) := by omega
  · have hne : ¬(bytesToUint16 b2 b3 > 2000 ∨ bytesToUint16 b2 b3 = 0) := by omega
    have hd : dispatch h ⟨u, FC_READ_COILS, [b0, b1, b2, b3]⟩ =
        some (.err .serverDeviceFailure,
          [HCall.coils u (bytesToUint16 b0 b1) (bytesToUint16 b2 b3) false []]) := by
      simp only [dispatch, FC_READ_COILS, FC_READ_DISCRETE_INPUTS]
      norm_num
      simp [readCoilsBranch, List.get?, FC_READ_COILS, hne, haddr2, hh, hcount]
    rw [handleRequests_cons_of_dispatch_err h _ rest _ _ (by decide) hd, hmap]
  · have hne : ¬(bytesToUint16 b2 b3 > 2000 ∨ bytesToUint16 b2 b3 = 0) := by omega
    have hd : dispatch h ⟨u, FC_READ_DISCRETE_INPUTS, [b0, b1, b2, b3]⟩ =
        some (.err .serverDeviceFailure,
          [HCall.discreteInputs u (bytesToUint16 b0 b1) (bytesToUint16 b2 b3)]) := by
      simp only [dispatch, FC_READ_COILS, FC_READ_DISCRETE_INPUTS]
      norm_num
      simp [readCoilsBranch, List.get?, FC_READ_COILS, hne, haddr2, hh, hcount]
    rw [handleRequests_cons_of_dispatch_err h _ rest _ _ (by decide) hd, hmap]
  · have hne : ¬(bytesToUint16 b2 b3 > 0x7d ∨ bytesToUint16 b2 b3 = 0) := by omega
    have hd : dispatch h ⟨u, FC_READ_HOLDING_REGISTERS, [b0, b1, b2, b3]⟩ =
        some (.err .serverDeviceFailure,
          [HCall.holdingRegs u (bytesToUint16 b0 b1) (bytesToUint16 b2 b3) false []]) := by
      simp only [dispatch, FC_READ_COILS, FC_READ_DISCRETE_INPUTS, FC_WRITE_SINGLE_COIL,
        FC_WRITE_MULTIPLE_COILS, FC_READ_HOLDING_REGISTERS, FC_READ_INPUT_REGISTERS]
      norm_num
      simp [readRegistersBranch, List.get?, FC_READ_HOLDING_REGISTERS, hne, haddr2, hh, hcount]
    rw [handleRequests_cons_of_dispatch_err h _ rest _ _ (by decide) hd, hmap]
  · have hne : ¬(bytesToUint16 b2 b3 > 0x7d ∨ bytesToUint16 b2 b3 = 0) := by omega
    have hd : dispatch h ⟨u, FC_READ_INPUT_REGISTERS, [b0, b1, b2, b3]⟩ =
        some (.err .serverDeviceFailure,
          [HCall.inputRegs u (bytesToUint16 b0 b1) (bytesToUint16 b2 b3)]) := by
      simp only [dispatch, FC_READ_COILS, FC_READ_DISCRETE_INPUTS, FC_WRITE_SINGLE_COIL,
        FC_WRITE_MULTIPLE_COILS, FC_READ_HOLDING_REGISTERS, FC_READ_INPUT_REGISTERS]
      norm_num
      simp [readRegistersBranch, List.get?, FC_READ_HOLDING_REGISTERS, hne, haddr2, hh, hcount]
    rw [handleRequests_cons_of_dispatch_err h _ rest _ _ (by decide) hd, hmap]

/-- C7 witness: the empty-result handler answers a quantity-1 Read Coils
request with a server-device-failure error response, and the link stays
open (a later request is still served). -/
theorem wrong_count_server_device_failure_witness :
    handleRequests nullHandler [⟨0, FC_READ_COILS, [0, 0, 0, 1]⟩, ⟨0, 0x2b, []⟩] =
      [⟨0, 0x80 ||| FC_READ_COILS, [EX_SERVER_DEVICE_FAILURE]⟩,
       ⟨0, 0x80 ||| 0x2b, [EX_ILLEGAL_FUNCTION]⟩] := by
  have h := (wrong_count_server_device_failure nullHandler).1 0 0 0 0 1 [⟨0, 0x2b, []⟩] []
    rfl (by decide) (by decide) (by decide) (by decide)
  rw [h]
  decide

/-- C10 counterexample: a handler that returns the protocol-error value
together with a wrong-length result slice does not get its error mapped
into an exception response; the link is closed and nothing is written. -/
theorem handler_error_precedence_counterexample :
    handleRequest protoErrHandler ⟨0, FC_READ_COILS, [0, 0, 0, 1]⟩ =
      (.closed, [HCall.coils 0 0 1 false []]) ∧
    handleRequests protoErrHandler [⟨0, FC_READ_COILS, [0, 0, 0, 1]⟩] = [] := by
  decide

/-- C10 (amended): on every read request with valid bounds where the
handler returns a non-nil error and a wrong-length result slice, the
result-count check is skipped and the handler error takes precedence:
for any handler error other than the protocol-error value, the exception
byte sent is the one mapped from that error, not server device failure
(a handler returning the protocol-error value closes the link instead). -/
theorem handler_error_precedence (h : Handler) (e : MbError) (hne : e ≠ .protocolError) :
    (∀ u b0 b1 b2 b3 rest res,
      h.HandleCoils u (bytesToUint16 b0 b1) (bytesToUint16 b2 b3) false [] = (res, some e) →
      res.length ≠ bytesToUint16 b2 b3 →
      1 ≤ bytesToUint16 b2 b3 → bytesToUint16 b2 b3 ≤ 2000 →
      bytesToUint16 b0 b1 + bytesToUint16 b2 b3 - 1 ≤ 0xffff →
      handleRequests h (⟨u, FC_READ_COILS, [b0, b1, b2, b3]⟩ :: rest) =
        ⟨u, 0x80 ||| FC_READ_COILS, [mapErrorToExceptionCode e]⟩ :: handleRequests h rest) ∧
    (∀ u b0 b1 b2 b3 rest res,
      h.HandleDiscreteInputs u (bytesToUint16 b0 b1) (bytesToUint16 b2 b3) = (res, some e) →
      res.length ≠ bytesToUint16 b2 b3 →
      1 ≤ bytesToUint16 b2 b3 → bytesToUint16 b2 b3 ≤ 2000 →
      bytesToUint16 b0 b1 + bytesToUint16 b2 b3 - 1 ≤ 0xffff →
      handleRequests h (⟨u, FC_READ_DISCRETE_INPUTS, [b0, b1, b2, b3]⟩ :: rest) =
        ⟨u, 0x80 ||| FC_READ_DISCRETE_INPUTS, [mapErrorToExceptionCode e]⟩ ::
          handleRequests h rest) ∧
    (∀ u b0 b1 b2 b3 rest res,
      h.HandleHoldingRegisters u (bytesToUint16 b0 b1) (bytesToUint16 b2 b3) false [] =
        (res, some e) →
      res.length ≠ bytesToUint16 b2 b3 →
      1 ≤ bytesToUint16 b2 b3 → bytesToUint16 b2 b3 ≤ 0x7d →
      bytesToUint16 b0 b1 + bytesToUint16 b2 b3 - 1 ≤ 0xffff →
      handleRequests h (⟨u, FC_READ_HOLDING_REGISTERS, [b0, b1, b2, b3]⟩ :: rest) =
        ⟨u, 0x80 ||| FC_READ_HOLDING_REGISTERS, [mapErrorToExceptionCode e]⟩ ::
          handleRequests h rest) ∧
    (∀ u b0 b1 b2 b3 rest res,
      h.HandleInputRegisters u (bytesToUint16 b0 b1) (bytesToUint16 b2 b3) = (res, some e) →
      res.length ≠ bytesToUint16 b2 b3 →
      1 ≤ bytesToUint16 b2 b3 → bytesToUint16 b2 b3 ≤ 0x7d →
      bytesToUint16 b0 b1 + bytesToUint16 b2 b3 - 1 ≤ 0xffff →
      handleRequests h (⟨u, FC_READ_INPUT_REGISTERS, [b0, b1, b2, b3]⟩ :: rest) =
        ⟨u, 0x80 ||| FC_READ_INPUT_REGISTERS, [mapErrorToExceptionCode e]⟩ ::
          handleRequests h rest) := by
  refine ⟨?_, ?_, ?_, ?_⟩ <;> intro u b0 b1 b2 b3 rest res hh hcount hq1 hq2 haddr <;>
    have haddr2 : ¬(bytesToUint16 b0 b1 + bytesToUint16 b2 b3 - 1 > 0xffff) := by omega
  · have hne2 : ¬(bytesToUint16 b2 b3 > 2000 ∨ bytesToUint16 b2 b3 = 0) := by omega
    have hd : dispatch h ⟨u, FC_READ_COILS, [b0, b1, b2, b3]⟩ =
        some (.err e,
          [HCall.coils u (bytesToUint16 b0 b1) (bytesToUint16 b2 b3) false []]) := by
      simp only [dispatch, FC_READ_COILS, FC_READ_DISCRETE_INPUTS]
      norm_num
      simp [readCoilsBranch, List.get?, FC_READ_COILS, hne2, haddr2, hh]
    rw [handleRequests_cons_of_dispatch_err h _ rest _ _ hne hd]
  · have hne2 : ¬(bytesToUint16 b2 b3 > 2000 ∨ bytesToUint16 b2 b3 = 0) := by omega
    have hd : dispatch h ⟨u, FC_READ_DISCRETE_INPUTS, [b0, b1, b2, b3]⟩ =
        some (.err e,
          [HCall.discreteInputs u (bytesToUint16 b0 b1) (bytesToUint16 b2 b3)]) := by
      simp only [dispatch, FC_READ_COILS, FC_READ_DISCRETE_INPUTS]
      norm_num
      simp [readCoilsBranch, List.get?, FC_READ_COILS, hne2, haddr2, hh]
    rw [handleRequests_cons_of_dispatch_err h _ rest _ _ hne hd]
  · have hne2 : ¬(bytesToUint16 b2 b3 > 0x7d ∨ bytesToUint16 b2 b3 = 0) := by omega
    have hd : dispatch h ⟨u, FC_READ_HOLDING_REGISTERS, [b0, b1, b2, b3]⟩ =
        some (.err e,
          [HCall.holdingRegs u (bytesToUint16 b0 b1) (bytesToUint16 b2 b3) false []]) := by
      simp only [dispatch, FC_READ_COILS, FC_READ_DISCRETE_INPUTS, FC_WRITE_SINGLE_COIL,
        FC_WRITE_MULTIPLE_COILS, FC_READ_HOLDING_REGISTERS, FC_READ_INPUT_REGISTERS]
      norm_num
      simp [readRegistersBranch, List.get?, FC_READ_HOLDING_REGISTERS, hne2, haddr2, hh]
    rw [handleRequests_cons_of_dispatch_err h _ rest _ _ hne hd]
  · have hne2 : ¬(bytesToUint16 b2 b3 > 0x7d ∨ bytesToUint16 b2 b3 = 0) := by omega
    have hd : dispatch h ⟨u, FC_READ_INPUT_REGISTERS, [b0, b1, b2, b3]⟩ =
        some (.err e,
          [HCall.inputRegs u (bytesToUint16 b0 b1) (bytesToUint16 b2 b3)]) := by
      simp only [dispatch, FC_READ_COILS, FC_READ_DISCRETE_INPUTS, FC_WRITE_SINGLE_COIL,
        FC_WRITE_MULTIPLE_COILS, FC_READ_HOLDING_REGISTERS, FC_READ_INPUT_REGISTERS]
      norm_num
      simp [readRegistersBranch, List.get?, FC_READ_HOLDING_REGISTERS, hne2, haddr2, hh]
    rw [handleRequests_cons_of_dispatch_err h _ rest _ _ hne hd]

/-- C10 witness: a handler returning the illegal-data-value error with an
empty result slice gets that error mapped, not server device failure. -/
theorem handler_error_precedence_witness :
    handleRequests
        (Handler.mk (fun _ _ _ _ _ => ([], some .illegalDataValue))
          (fun _ _ _ => ([], none)) (fun _ _ _ _ _ => ([], none)) (fun _ _ _ => ([], none)))
        [⟨0, FC_READ_COILS, [0, 0, 0, 1]⟩] =
      [⟨0, 0x80 ||| FC_READ_COILS, [mapErrorToExceptionCode .illegalDataValue]⟩] := by
  have h := (handler_error_precedence
    (Handler.mk (fun _ _ _ _ _ => ([], some .illegalDataValue))
      (fun _ _ _ => ([], none)) (fun _ _ _ _ _ => ([], none)) (fun _ _ _ => ([], none)))
    .illegalDataValue (by decide)).1 0 0 0 0 1 [] [] rfl (by decide) (by decide)
    (by decide) (by decide)
  rw [h]
  rfl

/-! ### Helper lemmas for bit packing and the success paths -/

theorem boolsToByte_cons (b : Bool) (t : List Bool) :
    boolsToByte (b :: t) = boolsToByte t * 2 + (if b then 1 else 0) := rfl

theorem boolsToByte_bit (chunk : List Bool) :
    ∀ r, r < chunk.length →
      boolsToByte chunk / 2 ^ r % 2 = if chunk.getD r false then 1 else 0 := by
  induction chunk with
  | nil => intro r hr; simp at hr
  | cons b t ih =>
    intro r hr
    have hbit : (if b then (1 : Nat) else 0) < 2 := by cases b <;> simp
    cases r with
    | zero =>
      rw [boolsToByte_cons, pow_zero, Nat.div_one, List.getD_cons_zero]
      cases b
      · simp
      · simp
        omega
    | succ r2 =>
      have hdiv2 : (boolsToByte t * 2 + if b then 1 else 0) / 2 = boolsToByte t := by omega
      rw [boolsToByte_cons, pow_succ, mul_comm (2 ^ r2) 2, ← Nat.div_div_eq_div_mul,
        hdiv2, List.getD_cons_succ]
      exact ih r2 (by simpa using hr)

theorem encodeBools_getD (bs : List Bool) (i : Nat) (hi : i < bs.length) :
    (encodeBools bs).getD (i / 8) 0 = boolsToByte ((bs.drop (8 * (i / 8))).take 8) := by
  have hlt : i / 8 < (bs.length + 7) / 8 := by omega
  simp [encodeBools, List.getD_eq_getElem?_getD, List.getElem?_map, List.getElem?_range, hlt]

theorem packed_chunk_getD (bs : List Bool) (i : Nat) :
    ((bs.drop (8 * (i / 8))).take 8).getD (i % 8) false = bs.getD i false := by
  have h8 : i % 8 < 8 := Nat.mod_lt _ (by omega)
  have hidx : 8 * (i / 8) + i % 8 = i := by omega
  rw [List.getD_eq_getElem?_getD, List.getD_eq_getElem?_getD, List.getElem?_take,
    if_pos h8, List.getElem?_drop, hidx]

theorem packed_chunk_length (bs : List Bool) (i : Nat) (hi : i < bs.length) :
    i % 8 < ((bs.drop (8 * (i / 8))).take 8).length := by
  rw [List.length_take, List.length_drop]
  exact lt_min (by omega) (by omega)

/-- A successful dispatch outcome is written back as the built response and
the loop keeps serving later requests. -/
theorem handleRequests_cons_of_dispatch_ok (h : Handler) (req : pdu) (rest : List pdu)
    (res : pdu) (calls : List HCall) (hd : dispatch h req = some (.ok res, calls)) :
    handleRequests h (req :: rest) = res :: handleRequests h rest := by
  simp [handleRequests, handleRequest, hd, finalize]

/-- C3: a Read Coils request with quantity in [1, 2000], an address range
inside the 16-bit space, and a handler returning exactly quantity booleans
with nil error is answered with a pdu that keeps the request function
code, whose first payload byte is the byte count ceil(quantity / 8), and
whose packed bits hold the handler booleans in order, bit i (least
significant bit first within each byte) at byte i / 8, bit i % 8. -/
theorem readCoils_success_response (h : Handler) (u b0 b1 b2 b3 : Nat)
    (coils : List Bool) (rest : List pdu)
    (hh : h.HandleCoils u (bytesToUint16 b0 b1) (bytesToUint16 b2 b3) false [] = (coils, none))
    (hcount : coils.length = bytesToUint16 b2 b3)
    (hq1 : 1 ≤ bytesToUint16 b2 b3) (hq2 : bytesToUint16 b2 b3 ≤ 2000)
    (haddr : bytesToUint16 b0 b1 + bytesToUint16 b2 b3 - 1 ≤ 0xffff) :
    handleRequests h (⟨u, FC_READ_COILS, [b0, b1, b2, b3]⟩ :: rest) =
      ⟨u, FC_READ_COILS, ((bytesToUint16 b2 b3 + 7) / 8) :: encodeBools coils⟩ ::
        handleRequests h rest ∧
    (∀ i < bytesToUint16 b2 b3,
      (encodeBools coils).getD (i / 8) 0 / 2 ^ (i % 8) % 2 =
        if coils.getD i false then 1 else 0) := by
  have hne : ¬(bytesToUint16 b2 b3 > 2000 ∨ bytesToUint16 b2 b3 = 0) := by omega
  have haddr2 : ¬(bytesToUint16 b0 b1 + bytesToUint16 b2 b3 - 1 > 0xffff) := by omega
  constructor
  · have hd : dispatch h ⟨u, FC_READ_COILS, [b0, b1, b2, b3]⟩ =
        some (.ok ⟨u, FC_READ_COILS, ((bytesToUint16 b2 b3 + 7) / 8) :: encodeBools coils⟩,
          [HCall.coils u (bytesToUint16 b0 b1) (bytesToUint16 b2 b3) false []]) := by
      simp only [dispatch, FC_READ_COILS, FC_READ_DISCRETE_INPUTS]
      norm_num
      simp [readCoilsBranch, List.get?, FC_READ_COILS, hne, haddr2, hh, hcount]
      rcases eq_or_ne (bytesToUint16 b2 b3 % 8) 0 with h8 | h8 <;> simp [h8] <;> omega
    rw [handleRequests_cons_of_dispatch_ok h _ rest _ _ hd]
  · intro i hi
    have hi2 : i < coils.length := by omega
    rw [encodeBools_getD coils i hi2,
      boolsToByte_bit _ (i % 8) (packed_chunk_length coils i hi2),
      packed_chunk_getD coils i]

/-- C3 witness: a quantity-1 Read Coils request against a handler holding
one true coil. -/
theorem readCoils_success_response_witness :
    handleRequests oneCoilHandler [⟨0, FC_READ_COILS, [0, 0, 0, 1]⟩] =
      ⟨0, FC_READ_COILS, ((bytesToUint16 0 1 + 7) / 8) :: encodeBools [true]⟩ ::
        handleRequests oneCoilHandler [] ∧
    (∀ i < bytesToUint16 0 1,
      (encodeBools [true]).getD (i / 8) 0 / 2 ^ (i % 8) % 2 =
        if [true].getD i false then 1 else 0) :=
  readCoils_success_response oneCoilHandler 0 0 0 0 1 [true] [] rfl (by decide)
    (by decide) (by decide) (by decide)

theorem bytesToUint16s_uint16sToBytes (regs : List Nat) (hb : ∀ v ∈ regs, v < 65536) :
    bytesToUint16s (uint16sToBytes regs) = regs := by
  induction regs with
  | nil => rfl
  | cons v t ih =>
    have hv : v < 65536 := hb v (List.mem_cons_self v t)
    have ht : ∀ w ∈ t, w < 65536 := fun w hw => hb w (List.mem_cons_of_mem v hw)
    have hstep : uint16sToBytes (v :: t) =
        v / 256 % 256 :: v % 256 :: uint16sToBytes t := by
      simp [uint16sToBytes, uint16ToBytes]
    rw [hstep, bytesToUint16s, ih ht, bytesToUint16]
    congr 1
    omega

/-- C8: encoding the Read Holding Registers success response for handler
values [1, 2, 3] yields the payload 06 00 01 00 02 00 03 (byte count 6
followed by the big-endian 16-bit values); decoding that register body
yields [1, 2, 3] again; and for every register list whose length is in
[1, 0x7d] (each value a 16-bit quantity), decoding the encoded register
body is the identity. -/
theorem registers_encode_decode_roundtrip :
    (handleRequest threeRegsHandler ⟨1, FC_READ_HOLDING_REGISTERS, [0, 0, 0, 3]⟩).1 =
      .reply ⟨1, FC_READ_HOLDING_REGISTERS, [6, 0, 1, 0, 2, 0, 3]⟩ ∧
    bytesToUint16s [0, 1, 0, 2, 0, 3] = [1, 2, 3] ∧
    (∀ regs : List Nat, 1 ≤ regs.length → regs.length ≤ 0x7d →
      (∀ v ∈ regs, v < 65536) → bytesToUint16s (uint16sToBytes regs) = regs) := by
  refine ⟨by decide, by decide, ?_⟩
  intro regs h1 h2 hb
  exact bytesToUint16s_uint16sToBytes regs hb

/-- C8 witness: the round-trip identity instantiated at [1, 2, 3]. -/
theorem registers_encode_decode_roundtrip_witness :
    bytesToUint16s (uint16sToBytes [1, 2, 3]) = [1, 2, 3] :=
  registers_encode_decode_roundtrip.2.2 [1, 2, 3] (by decide) (by decide) (by decide)

/-! ### Totality of the dispatcher (no out-of-bounds payload access) -/

theorem readCoilsBranch_ne_none (h : Handler) (req : pdu) : readCoilsBranch h req ≠ none := by
  unfold readCoilsBranch
  split
  · simp
  · rename_i hlen
    rw [List.get?_eq_get (by omega), List.get?_eq_get (by omega),
      List.get?_eq_get (by omega), List.get?_eq_get (by omega)]
    split
    · dsimp only
      repeat' split
      all_goals simp
    · rename_i hno
      exact (hno _ _ _ _ rfl rfl rfl rfl).elim

theorem writeSingleCoilBranch_ne_none (h : Handler) (req : pdu) :
    writeSingleCoilBranch h req ≠ none := by
  unfold writeSingleCoilBranch
  split
  · simp
  · rename_i hlen
    rw [List.get?_eq_get (by omega), List.get?_eq_get (by omega),
      List.get?_eq_get (by omega), List.get?_eq_get (by omega)]
    split
    · dsimp only
      repeat' split
      all_goals simp
    · rename_i hno
      exact (hno _ _ _ _ rfl rfl rfl rfl).elim

theorem writeMultipleCoilsBranch_ne_none (h : Handler) (req : pdu) :
    writeMultipleCoilsBranch h req ≠ none := by
  unfold writeMultipleCoilsBranch
  split
  · simp
  · rename_i hlen
    rw [List.get?_eq_get (by omega), List.get?_eq_get (by omega),
      List.get?_eq_get (by omega), List.get?_eq_get (by omega),
      List.get?_eq_get (by omega)]
    split
    · dsimp only
      repeat' split
      all_goals simp
    · rename_i hno
      exact (hno _ _ _ _ _ rfl rfl rfl rfl rfl).elim

theorem readRegistersBranch_ne_none (h : Handler) (req : pdu) :
    readRegistersBranch h req ≠ none := by
  unfold readRegistersBranch
  split
  · simp
  · rename_i hlen
    rw [List.get?_eq_get (by omega), List.get?_eq_get (by omega),
      List.get?_eq_get (by omega), List.get?_eq_get (by omega)]
    split
    · dsimp only
      repeat' split
      all_goals simp
    · rename_i hno
      exact (hno _ _ _ _ rfl rfl rfl rfl).elim

theorem writeSingleRegisterBranch_ne_none (h : Handler) (req : pdu) :
    writeSingleRegisterBranch h req ≠ none := by
  unfold writeSingleRegisterBranch
  split
  · simp
  · rename_i hlen
    rw [List.get?_eq_get (by omega), List.get?_eq_get (by omega),
      List.get?_eq_get (by omega), List.get?_eq_get (by omega)]
    split
    · dsimp only
      repeat' split
      all_goals simp
    · rename_i hno
      exact (hno _ _ _ _ rfl rfl rfl rfl).elim

theorem writeMultipleRegistersBranch_ne_none (h : Handler) (req : pdu) :
    writeMultipleRegistersBranch h req ≠ none := by
  unfold writeMultipleRegistersBranch
  split
  · simp
  · rename_i hlen
    rw [List.get?_eq_get (by omega), List.get?_eq_get (by omega),
      List.get?_eq_get (by omega), List.get?_eq_get (by omega),
      List.get?_eq_get (by omega)]
    split
    · dsimp only
      repeat' split
      all_goals simp
    · rename_i hno
      exact (hno _ _ _ _ _ rfl rfl rfl rfl rfl).elim

/-- C9: the dispatcher is total: on every request pdu, with any payload
(also empty or short ones), every payload byte access is guarded by the
preceding length check, so dispatch never performs an out-of-bounds
access and one loop iteration never produces the out-of-bounds marker. -/
theorem dispatch_never_out_of_bounds (h : Handler) (req : pdu) :
    dispatch h req ≠ none ∧ (handleRequest h req).1 ≠ .oob := by
  have hd : dispatch h req ≠ none := by
    unfold dispatch
    split
    · exact readCoilsBranch_ne_none h req
    · split
      · exact writeSingleCoilBranch_ne_none h req
      · split
        · exact writeMultipleCoilsBranch_ne_none h req
        · split
          · exact readRegistersBranch_ne_none h req
          · split
            · exact writeSingleRegisterBranch_ne_none h req
            · split
              · exact writeMultipleRegistersBranch_ne_none h req
              · simp
  refine ⟨hd, ?_⟩
  unfold handleRequest
  match hq : dispatch h req with
  | none => exact absurd hq hd
  | some (.err e, calls) =>
    simp [finalize]
    split <;> simp
  | some (.ok res, calls) => simp [finalize]

/-! ### Server lifecycle lemmas -/

theorem swapRemove_length_le (l : List Nat) (c : Nat) :
    (swapRemove l c).length ≤ l.length := by
  unfold swapRemove
  split
  · exact le_refl _
  · rw [List.length_dropLast, List.length_set]
    omega

theorem swapRemove_cons_head (c : Nat) (t : List Nat) :
    (swapRemove (c :: t) c).length = t.length := by
  have hfind : (c :: t).findIdx? (· = c) = some 0 := by
    simp [List.findIdx?_cons]
  rw [swapRemove, hfind]
  rw [List.length_dropLast, List.length_set]
  simp

theorem step_preserves_maxClients (max : Nat) (s : ServerState) (e : Event)
    (hs : s.tcpClients.length ≤ max) : (step max s e).tcpClients.length ≤ max := by
  cases e with
  | start =>
    simp only [step]
    split <;> simpa
  | stop =>
    simp only [step]
    split <;> simpa
  | accept c =>
    simp only [step]
    split
    · exact hs
    · split
      · rename_i hlt
        simpa using hlt
      · simpa
  | workerExit c =>
    simp only [step]
    exact le_trans (swapRemove_length_le _ _) hs

theorem foldl_preserves_maxClients (max : Nat) :
    ∀ (es : List Event) (s : ServerState), s.tcpClients.length ≤ max →
      (es.foldl (step max) s).tcpClients.length ≤ max := by
  intro es
  induction es with
  | nil => intro s hs; simpa
  | cons e es2 ih =>
    intro s hs
    exact ih _ (step_preserves_maxClients max s e hs)

theorem drain_empties (max : Nat) :
    ∀ (fuel : Nat) (s : ServerState), s.tcpClients.length ≤ fuel →
      (drain max fuel s).tcpClients = [] := by
  intro fuel
  induction fuel with
  | zero =>
    intro s hs
    have h0 : drain max 0 s = s := rfl
    rw [h0]
    exact List.length_eq_zero.mp (by omega)
  | succ f ih =>
    intro s hs
    rw [drain]
    split
    · assumption
    · rename_i hne
      obtain ⟨c, t, hc⟩ := List.exists_cons_of_ne_nil hne
      apply ih
      simp only [step, hc, List.headD_cons]
      rw [swapRemove_cons_head]
      have hlen : s.tcpClients.length = t.length + 1 := by rw [hc]; simp
      omega

/-- C2: in every state reachable from the initial one by any interleaving
of Start / Stop / accept-loop admissions / worker deregistrations, the
active-connection set never exceeds MaxClients; and while the listener is
open, an accepted connection is admitted (appended to tcpClients and
handed to a worker) exactly when the current size is strictly below
MaxClients, and otherwise it is closed without being handed to a worker. -/
theorem tcpClients_bounded_by_maxClients (max : Nat) (es : List Event) (c : Nat) :
    (runEvents max es).tcpClients.length ≤ max ∧
    ((runEvents max es).listenerOpen = true →
      step max (runEvents max es) (.accept c) =
        (if (runEvents max es).tcpClients.length < max then
          { runEvents max es with
              tcpClients := (runEvents max es).tcpClients ++ [c],
              workers := (runEvents max es).workers ++ [c] }
         else
          { runEvents max es with closedConns := c :: (runEvents max es).closedConns })) := by
  refine ⟨foldl_preserves_maxClients max es initState (by simp [initState]), ?_⟩
  intro hopen
  simp [step, hopen]

/-- C2 witness: with MaxClients 2 and one admitted connection, a second
accept is admitted; the invariant holds in that reachable state. -/
theorem tcpClients_bounded_by_maxClients_witness :
    (runEvents 2 [.start, .accept 1]).tcpClients.length ≤ 2 ∧
    step 2 (runEvents 2 [.start, .accept 1]) (.accept 5) =
      (if (runEvents 2 [.start, .accept 1]).tcpClients.length < 2 then
        { runEvents 2 [.start, .accept 1] with
            tcpClients := (runEvents 2 [.start, .accept 1]).tcpClients ++ [5],
            workers := (runEvents 2 [.start, .accept 1]).workers ++ [5] }
       else
        { runEvents 2 [.start, .accept 1] with
            closedConns := 5 :: (runEvents 2 [.start, .accept 1]).closedConns }) :=
  ⟨(tcpClients_bounded_by_maxClients 2 [.start, .accept 1] 5).1,
   (tcpClients_bounded_by_maxClients 2 [.start, .accept 1] 5).2 (by decide)⟩

/-- C1 counterexample: start the server, admit one connection, then Stop.
When Stop returns, the listener is closed and the connection has been
closed, but tcpClients is not empty: it still holds the connection, which
is only removed later when its worker deregisters. -/
theorem stop_empty_clients_counterexample :
    (runEvents 10 [.start, .accept 7, .stop]).started = false ∧
    (runEvents 10 [.start, .accept 7, .stop]).listenerOpen = false ∧
    (runEvents 10 [.start, .accept 7, .stop]).tcpClients = [7] ∧
    (runEvents 10 [.start, .accept 7, .stop]).tcpClients ≠ [] := by
  decide

/-- C1 (amended): for every started server, when Stop returns the listener
has been closed and every connection in tcpClients has been closed; the
set itself is not cleared by Stop, and becomes empty once each remaining
worker has deregistered its connection. -/
theorem stop_closes_listener_and_clients (max : Nat) (s : ServerState)
    (hs : s.started = true) :
    (step max s .stop).started = false ∧
    (step max s .stop).listenerOpen = false ∧
    (∀ c ∈ (step max s .stop).tcpClients, c ∈ (step max s .stop).closedConns) ∧
    (drain max (step max s .stop).tcpClients.length (step max s .stop)).tcpClients = [] := by
  have hstop : step max s .stop =
      { s with started := false, listenerOpen := false,
               closedConns := s.tcpClients ++ s.closedConns } := by
    simp [step, hs]
  rw [hstop]
  refine ⟨rfl, rfl, ?_, drain_empties max _ _ (le_refl _)⟩
  intro c hc
  simp only at hc ⊢
  exact List.mem_append_left _ hc

/-- C1 witness: a started server with one tracked connection. -/
theorem stop_closes_listener_and_clients_witness :
    (step 10 ⟨true, true, [3], [3], []⟩ .stop).started = false ∧
    (step 10 ⟨true, true, [3], [3], []⟩ .stop).listenerOpen = false ∧
    (∀ c ∈ (step 10 ⟨true, true, [3], [3], []⟩ .stop).tcpClients,
      c ∈ (step 10 ⟨true, true, [3], [3], []⟩ .stop).closedConns) ∧
    (drain 10 (step 10 ⟨true, true, [3], [3], []⟩ .stop).tcpClients.length
      (step 10 ⟨true, true, [3], [3], []⟩ .stop)).tcpClients = [] :=
  stop_closes_listener_and_clients 10 ⟨true, true, [3], [3], []⟩ rfl

end Modbus
